import Mathlib

/-!
Verification development for the `impl` tool: a shallow embedding of the
discovery-and-matching engine (impl.go, errors.go) together with theorems
about its deduplication, self-exclusion and error-propagation behaviour.

The embedding mirrors the Go source:
  * `Ty` models `types.Type` restricted to the shapes the tool manipulates
    (basic types, named types, pointers); a `TypeEnv` carries, for every
    named type, its interface/concrete classification and the method sets
    of `T` and `*T` as resolved by the frontend (`go/types`).
  * `ObjectIdent`, `Char`, `Result`, `ResultIdentifier` mirror the structs
    of impl.go; `findImplementers`, `filterInterfaces`, `findDef`,
    `intuitiveImplements`, `NewChar`, `NewResultIdentifier` mirror the
    functions of the same names.
  * `wrapErr` / `errorMsg` mirror errors.go.
  * `getObjectsPkg` / `getObjects` model the symbol collector and the
    fan-in aggregation loop; the nondeterministic merged channel contents
    are represented by an explicit event trace.
-/

namespace Impl

/-- Package identity: a resolved `*types.Package`. The `id` component models
pointer identity (two packages with the same import path but distinct
resolved package objects differ), `path` is the textual name used by
`types.TypeString`. -/
structure Pkg where
  id : Nat
  path : String
deriving DecidableEq, Repr

/-- Model of `types.Type` restricted to the shapes that occur in the tool:
basic types, named types (carrying their `TypeName` object's package, name
and declaration `token.Pos`), and pointers. -/
inductive Ty where
  | int : Ty
  | str : Ty
  | named (pkg : Pkg) (name : String) (dpos : Nat) : Ty
  | pointer (elem : Ty) : Ty
deriving DecidableEq, Repr

/-- A resolved method: name plus parameter and result type descriptors. -/
structure Method where
  name : String
  params : List Ty
  results : List Ty
deriving DecidableEq, Repr

/-- Frontend-resolved data for one named type: whether its underlying type
is an interface, the method set of `T`, and the method set of `*T`. -/
structure NamedInfo where
  isInterface : Bool
  methods : List Method
  ptrMethods : List Method
deriving DecidableEq, Repr

/-- The frontend's resolved named-type table (part of the symbol table the
external collaborator provides). -/
abbrev TypeEnv := List ((Pkg × String) × NamedInfo)

/-- Look up the resolved information of a named type. -/
def lookupNamed (env : TypeEnv) (p : Pkg) (n : String) : Option NamedInfo :=
  (env.find? (fun e => decide (e.1 = (p, n)))).map (fun e => e.2)

/-- Model of `types.IsInterface`: true when the underlying type is an
interface type. Pointers and basic types are never interfaces. -/
def IsInterface (env : TypeEnv) : Ty → Bool
  | Ty.named p n _ => ((lookupNamed env p n).map (fun i => i.isInterface)).getD false
  | _ => false

/-- The method set of a type, as `go/types` resolves it: a named type has
its declared (and promoted) value-receiver methods, `*T` has the full
pointer method set, everything else has none. -/
def methodSet (env : TypeEnv) : Ty → List Method
  | Ty.named p n _ => ((lookupNamed env p n).map (fun i => i.methods)).getD []
  | Ty.pointer (Ty.named p n _) => ((lookupNamed env p n).map (fun i => i.ptrMethods)).getD []
  | _ => []

/-- Model of `types.TypeString(typ, nil)`: the package-qualified textual
representation of a type. -/
def typeString : Ty → String
  | Ty.int => "int"
  | Ty.str => "string"
  | Ty.named p n _ => p.path ++ "." ++ n
  | Ty.pointer e => "*" ++ typeString e

/-- The method list of `iface.Type().Underlying().(*types.Interface)`: for a
named interface this is its interface method set. (The Go cast is only ever
applied to objects that passed the `types.IsInterface` filter.) -/
def underlyingInterface (env : TypeEnv) : Ty → List Method
  | Ty.named p n _ => ((lookupNamed env p n).map (fun i => i.methods)).getD []
  | _ => []

/-- Model of `types.Implements(t, i)`: the method set of `t` contains every
method of the interface with an identical name and signature. -/
def typesImplements (env : TypeEnv) (t : Ty) (ifaceMethods : List Method) : Bool :=
  ifaceMethods.all (fun m => decide (m ∈ methodSet env t))

/-- A source position (`token.Position`): file name, line and column. -/
structure Position where
  filename : String
  line : Nat
  column : Nat
deriving DecidableEq, Repr

/-- A `*token.FileSet`, modelled as the finite table translating a
`token.Pos` (a `Nat`, with `0` playing `token.NoPos`) to its `Position`. -/
abbrev FileSet := List (Nat × Position)

/-- `fset.Position(p)`: table lookup, with the zero `Position` for an
unknown or absent `token.Pos`. -/
def fsPosition (fs : FileSet) (p : Nat) : Position :=
  ((fs.find? (fun e => decide (e.1 = p))).map (fun e => e.2)).getD ⟨"", 0, 0⟩

/-- Mirror of `ObjectIdent`: a `types.Object` (its package, type and
declaring position) together with the `*token.FileSet` it belongs to. -/
structure ObjectIdent where
  pkg : Pkg
  ty : Ty
  pos : Nat
  fileSet : FileSet
deriving DecidableEq, Repr

/-- Mirror of `Char`: the identity characteristics of an object — its
resolved package and the textual representation of its type. -/
structure Char where
  pkg : Pkg
  typeName : String
deriving DecidableEq, Repr

/-- Mirror of `NewChar`: `Char{obj.Pkg(), types.TypeString(obj.Type(), nil)}`. -/
def NewChar (o : ObjectIdent) : Char :=
  ⟨o.pkg, typeString o.ty⟩

/-- Mirror of `CharSet`, the set of `Char`s recorded in a seen table. -/
abbrev CharSet := List Char

/-- Mirror of `findDef`: the declaration position of the named type after
resolving through pointers; `token.NoPos` (0) otherwise. -/
def findDef : Ty → Nat
  | Ty.named _ _ p => p
  | Ty.pointer e => findDef e
  | _ => 0

/-- Mirror of `ResultIdentifier`. -/
structure ResultIdentifier where
  Name : String
  Pos : Position
deriving DecidableEq, Repr

/-- Mirror of `NewResultIdentifier`. -/
def NewResultIdentifier (o : ObjectIdent) : ResultIdentifier :=
  ⟨typeString o.ty, fsPosition o.fileSet (findDef o.ty)⟩

/-- Mirror of `Result`. -/
structure Result where
  Interface : ResultIdentifier
  Implementers : List ResultIdentifier
deriving DecidableEq, Repr

/-- Mirror of `filterInterfaces`: the objects whose type is an interface
with the requested package-qualified name. -/
def filterInterfaces (env : TypeEnv) (objs : List ObjectIdent) (name : String) : List ObjectIdent :=
  objs.filter (fun o => IsInterface env o.ty && (typeString o.ty == name))

/-- Mirror of `intuitiveImplements`: like `types.Implements` but false when
the two objects have the same `Char`. -/
def intuitiveImplements (env : TypeEnv) (obj iface : ObjectIdent) : Bool :=
  if NewChar obj = NewChar iface then false
  else typesImplements env obj.ty (underlyingInterface env iface.ty)

/-- The inner loop of `findImplementers` for one selected interface: walk
the universe, skip candidates whose `Char` is already in this interface's
seen set, record the `Char` of every other candidate, skip interfaces in
concrete-only mode, and keep the candidates accepted by
`intuitiveImplements` (in traversal order). -/
def implementerObjs (env : TypeEnv) (concreteOnly : Bool) (iface : ObjectIdent) :
    List ObjectIdent → CharSet → List ObjectIdent
  | [], _ => []
  | obj :: rest, seenO =>
    if NewChar obj ∈ seenO then
      implementerObjs env concreteOnly iface rest seenO
    else if concreteOnly && IsInterface env obj.ty then
      implementerObjs env concreteOnly iface rest (NewChar obj :: seenO)
    else if intuitiveImplements env obj iface then
      obj :: implementerObjs env concreteOnly iface rest (NewChar obj :: seenO)
    else
      implementerObjs env concreteOnly iface rest (NewChar obj :: seenO)

/-- The `Result` row built for one selected interface: the interface's
identifier and the `NewResultIdentifier` of each accepted candidate. -/
def mkResult (env : TypeEnv) (objects : List ObjectIdent) (concreteOnly : Bool)
    (iface : ObjectIdent) : Result :=
  { Interface := NewResultIdentifier iface,
    Implementers := (implementerObjs env concreteOnly iface objects []).map NewResultIdentifier }

/-- The outer seen table of `findImplementers`: keep only the first
occurrence of every interface `Char` (`seen[in]` key test). -/
def dedupByChar : List ObjectIdent → CharSet → List ObjectIdent
  | [], _ => []
  | iface :: rest, seenI =>
    if NewChar iface ∈ seenI then dedupByChar rest seenI
    else iface :: dedupByChar rest (NewChar iface :: seenI)

/-- Mirror of `findImplementers`: select the interfaces matching the
target, process each distinct interface identity once, and build one
`Result` row per processed interface. -/
def findImplementers (env : TypeEnv) (objects : List ObjectIdent)
    (targetInterface : String) (concreteOnly : Bool) : List Result :=
  (dedupByChar (filterInterfaces env objects targetInterface) []).map
    (mkResult env objects concreteOnly)

/-- Iterated pointer former: `iterPtr k t` is `t` wrapped in `k` pointer
constructors. -/
def iterPtr : Nat → Ty → Ty
  | 0, t => t
  | k + 1, t => Ty.pointer (iterPtr k t)

/-! ## errors.go -/

/-- A Go `error` value as the tool produces it: either an underlying
(base) error with its message, or a `wrappedErr` carrying a contextual
message and the wrapped error. -/
inductive GoErr where
  | base (msg : String) : GoErr
  | wrapped (message : String) (err : GoErr) : GoErr
deriving DecidableEq, Repr

/-- The `Error()` method: a base error yields its message, and
`wrappedErr.Error()` is `fmt.Sprintf("%s: %v", w.message, w.err)`. -/
def errorMsg : GoErr → String
  | GoErr.base m => m
  | GoErr.wrapped m e => m ++ ": " ++ errorMsg e

/-- Mirror of `wrapErr`: when the error being wrapped is already a
`wrappedErr`, its contextual message is merged into the new message; the
returned `wrappedErr` wraps the original argument `e` unchanged. -/
def wrapErr (msg : String) (e : GoErr) : GoErr :=
  match e with
  | GoErr.wrapped m _ => GoErr.wrapped (msg ++ ": " ++ m) e
  | GoErr.base _ => GoErr.wrapped msg e

/-! ## Symbol collector (getObjectsPkg) -/

/-- The syntactic role of one entry of `types.Info.Defs`. -/
inductive DefKind where
  | typeDecl
  | funcDecl
  | methodName
  | recvDecl
  | paramDecl
  | varDecl
  | pkgName
deriving DecidableEq, Repr

/-- One `(ident, obj)` pair of the frontend's `Defs` map: the identifier's
name, the declaration's role, whether the `types.Object` is non-nil, and
whether the parser attached an `ast.Object` to the identifier
(`ident.Obj != nil`). An emitted entry stands for the `ObjectIdent{obj,
ident, fset}` value the collector sends for it. -/
structure DefEntry where
  ident : String
  kind : DefKind
  objPresent : Bool
  identObjPresent : Bool
deriving DecidableEq, Repr

/-- The emission loop of `getObjectsPkg`: every `Defs` entry is sent on the
output channel unless `obj == nil || ident.Obj == nil`. -/
def getObjectsPkgEmits (defs : List DefEntry) : List DefEntry :=
  defs.filter (fun e => e.objPresent && e.identObjPresent)

/-- Mirror of `getObjectsPkg`: a failed `conf.Check` is wrapped and
returned, a successful check leads to the emission loop. -/
def getObjectsPkg (checkResult : Except GoErr (List DefEntry)) : Except GoErr (List DefEntry) :=
  match checkResult with
  | Except.error e =>
      Except.error (wrapErr "type-checks failed. Make sure dependencies are completely installed" e)
  | Except.ok defs => Except.ok (getObjectsPkgEmits defs)

/-! ## Fan-in aggregation (getObjects select loop) -/

/-- One event observed by the `select` loop of `getObjects`: a value read
from the converged object channel, the close of that channel, or a value
read from the error channel (`none` models a unit finishing without
error). -/
inductive Event where
  | objEv (o : ObjectIdent) : Event
  | closeEv : Event
  | errEv (e : Option GoErr) : Event
deriving DecidableEq, Repr

/-- Whether an event makes the `select` loop return. -/
def isStopEvent : Event → Bool
  | Event.closeEv => true
  | Event.errEv (some _) => true
  | _ => false

/-- How the `select` loop of `getObjects` terminates. -/
inductive LoopOut where
  | done (result : List ObjectIdent) : LoopOut
  | failed (e : GoErr) : LoopOut
  | blocked
deriving DecidableEq, Repr

/-- The `select` loop of `getObjects` over one interleaving of channel
events: objects are accumulated; the channel close returns the accumulated
result; a non-nil error returns that error immediately. The second
component is the suffix of events the loop never consumed. An exhausted
trace without a stop event models the loop blocking. -/
def getObjectsLoop : List Event → List ObjectIdent → LoopOut × List Event
  | [], _ => (LoopOut.blocked, [])
  | ev :: rest, acc =>
    match ev with
    | Event.objEv o => getObjectsLoop rest (acc ++ [o])
    | Event.closeEv => (LoopOut.done acc, rest)
    | Event.errEv none => getObjectsLoop rest acc
    | Event.errEv (some e) => (LoopOut.failed e, rest)

/-- Mirror of `getObjects`' result: `parsePath` failure returns `(nil, err)`
directly; otherwise the select loop runs, returning `(result, nil)` on a
normal close and `(nil, err)` on a unit failure. The pair mirrors Go's
`([]ObjectIdent, error)` return. -/
def getObjects (parseResult : Option GoErr) (trace : List Event) :
    Option (List ObjectIdent) × Option GoErr :=
  match parseResult with
  | some e => (none, some e)
  | none =>
    match (getObjectsLoop trace []).1 with
    | LoopOut.done objs => (some objs, none)
    | LoopOut.failed e => (none, some e)
    | LoopOut.blocked => (none, none)

/-! ## The internal/testdata/file1.go universe

The compilation unit `testpkg` declares interfaces `Foo`, `Planet` (both
with methods `Exist()`, `Bar()`, `Baz(int)`), interface `Baz{Crazy()}`,
and the concrete `Zaphod` whose pointer receivers provide `Bar()`,
`Baz(int)`, `Exist()` and `Speak(string)`. The collector's stream contains
the four type declarations and the parser-resolved receiver and parameter
definitions of the method declarations. -/

/-- The resolved `testpkg` package object. -/
def testpkg : Pkg := ⟨1, "testpkg"⟩

/-- Method `Exist()`. -/
def mExist : Method := ⟨"Exist", [], []⟩

/-- Method `Bar()`. -/
def mBar : Method := ⟨"Bar", [], []⟩

/-- Method `Baz(int)`. -/
def mBaz : Method := ⟨"Baz", [Ty.int], []⟩

/-- Method `Speak(string)`. -/
def mSpeak : Method := ⟨"Speak", [Ty.str], []⟩

/-- Method `Crazy()`. -/
def mCrazy : Method := ⟨"Crazy", [], []⟩

/-- The named type `testpkg.Foo` (declared at token position 5). -/
def tyFoo : Ty := Ty.named testpkg "Foo" 5

/-- The named type `testpkg.Planet` (declared at token position 11). -/
def tyPlanet : Ty := Ty.named testpkg "Planet" 11

/-- The named type `testpkg.Baz` (declared at token position 17). -/
def tyBazI : Ty := Ty.named testpkg "Baz" 17

/-- The named type `testpkg.Zaphod` (declared at token position 23). -/
def tyZaphod : Ty := Ty.named testpkg "Zaphod" 23

/-- The resolved named-type table of the `testpkg` unit. `Zaphod` has only
pointer-receiver methods, so its value method set is empty while `*Zaphod`
provides all four methods. -/
def file1Env : TypeEnv :=
  [((testpkg, "Foo"), ⟨true, [mExist, mBar, mBaz], []⟩),
   ((testpkg, "Planet"), ⟨true, [mExist, mBar, mBaz], []⟩),
   ((testpkg, "Baz"), ⟨true, [mCrazy], []⟩),
   ((testpkg, "Zaphod"), ⟨false, [], [mBar, mBaz, mExist, mSpeak]⟩)]

/-- The `FileSet` of the unit, mapping the declaration positions to
`file1.go` source positions. -/
def file1Fset : FileSet :=
  [(5, ⟨"internal/testdata/file1.go", 5, 6⟩),
   (11, ⟨"internal/testdata/file1.go", 11, 6⟩),
   (17, ⟨"internal/testdata/file1.go", 17, 6⟩),
   (23, ⟨"internal/testdata/file1.go", 23, 6⟩)]

/-- The type declaration object for `Foo`. -/
def objFoo : ObjectIdent := ⟨testpkg, tyFoo, 5, file1Fset⟩

/-- The type declaration object for `Planet`. -/
def objPlanet : ObjectIdent := ⟨testpkg, tyPlanet, 11, file1Fset⟩

/-- The type declaration object for `Baz`. -/
def objBazI : ObjectIdent := ⟨testpkg, tyBazI, 17, file1Fset⟩

/-- The type declaration object for `Zaphod`. -/
def objZaphod : ObjectIdent := ⟨testpkg, tyZaphod, 23, file1Fset⟩

/-- The receiver definition `s *Zaphod` of `func (s *Zaphod) Bar()`. -/
def objRecvS : ObjectIdent := ⟨testpkg, Ty.pointer tyZaphod, 25, file1Fset⟩

/-- The parameter definition `a int` of `func (k *Zaphod) Baz(a int)`. -/
def objParamA : ObjectIdent := ⟨testpkg, Ty.int, 26, file1Fset⟩

/-- The receiver definition `k *Zaphod` of `func (k *Zaphod) Baz(a int)`. -/
def objRecvK : ObjectIdent := ⟨testpkg, Ty.pointer tyZaphod, 26, file1Fset⟩

/-- The receiver definition `z *Zaphod` of `func (z *Zaphod) Exist()`. -/
def objRecvZ : ObjectIdent := ⟨testpkg, Ty.pointer tyZaphod, 27, file1Fset⟩

/-- The parameter definition `s string` of `func (z *Zaphod) Speak(s string)`. -/
def objParamS : ObjectIdent := ⟨testpkg, Ty.str, 28, file1Fset⟩

/-- The symbol universe the collector produces for the unit (one traversal
order of the `Defs` map). -/
def file1Objects : List ObjectIdent :=
  [objFoo, objPlanet, objBazI, objZaphod, objRecvS, objParamA, objRecvK, objRecvZ, objParamS]

/-- The `Defs` entries of the `testpkg` unit, in one traversal order. The
parser attaches an `ast.Object` to top-level type declarations and to
receiver and parameter identifiers, but not to method names; the unit's
synthetic package identifier carries no `types.Object`. -/
def file1Defs : List DefEntry :=
  [⟨"testpkg", DefKind.pkgName, false, true⟩,
   ⟨"Foo", DefKind.typeDecl, true, true⟩,
   ⟨"Planet", DefKind.typeDecl, true, true⟩,
   ⟨"Baz", DefKind.typeDecl, true, true⟩,
   ⟨"Zaphod", DefKind.typeDecl, true, true⟩,
   ⟨"Bar", DefKind.methodName, true, false⟩,
   ⟨"s", DefKind.recvDecl, true, true⟩,
   ⟨"a", DefKind.paramDecl, true, true⟩,
   ⟨"Speak", DefKind.methodName, true, false⟩,
   ⟨"z", DefKind.recvDecl, true, true⟩]

/-! ## Helper lemmas -/

/-- `findDef` resolves through one pointer constructor. -/
theorem findDef_pointer (t : Ty) : findDef (Ty.pointer t) = findDef t :=
  rfl

/-- An object accepted by `intuitiveImplements` never shares the
interface's `Char`. -/
theorem intuitiveImplements_ne_char (env : TypeEnv) (obj iface : ObjectIdent)
    (h : intuitiveImplements env obj iface = true) : NewChar obj ≠ NewChar iface := by
  intro hc
  simp [intuitiveImplements, hc] at h

/-- Every member of the inner loop's output was accepted by
`intuitiveImplements`. -/
theorem mem_implementerObjs_intuitive (env : TypeEnv) (co : Bool) (iface : ObjectIdent) :
    ∀ (l : List ObjectIdent) (seen : CharSet) (obj : ObjectIdent),
      obj ∈ implementerObjs env co iface l seen → intuitiveImplements env obj iface = true := by
  intro l
  induction l with
  | nil =>
    intro seen obj h
    simp [implementerObjs] at h
  | cons a rest ih =>
    intro seen obj h
    rw [implementerObjs] at h
    by_cases h1 : NewChar a ∈ seen
    · rw [if_pos h1] at h
      exact ih seen obj h
    · rw [if_neg h1] at h
      by_cases h2 : (co && IsInterface env a.ty) = true
      · rw [if_pos h2] at h
        exact ih _ obj h
      · rw [if_neg h2] at h
        by_cases h3 : intuitiveImplements env a iface = true
        · rw [if_pos h3] at h
          rcases List.mem_cons.mp h with rfl | hm
          · exact h3
          · exact ih _ obj hm
        · rw [if_neg h3] at h
          exact ih _ obj h

/-- With concrete-only mode active, every member of the inner loop's output
is a non-interface type. -/
theorem mem_implementerObjs_not_interface (env : TypeEnv) (iface : ObjectIdent) :
    ∀ (l : List ObjectIdent) (seen : CharSet) (obj : ObjectIdent),
      obj ∈ implementerObjs env true iface l seen → IsInterface env obj.ty = false := by
  intro l
  induction l with
  | nil =>
    intro seen obj h
    simp [implementerObjs] at h
  | cons a rest ih =>
    intro seen obj h
    rw [implementerObjs] at h
    by_cases h1 : NewChar a ∈ seen
    · rw [if_pos h1] at h
      exact ih seen obj h
    · rw [if_neg h1] at h
      by_cases h2 : (true && IsInterface env a.ty) = true
      · rw [if_pos h2] at h
        exact ih _ obj h
      · rw [if_neg h2] at h
        simp only [Bool.true_and, Bool.not_eq_true] at h2
        by_cases h3 : intuitiveImplements env a iface = true
        · rw [if_pos h3] at h
          rcases List.mem_cons.mp h with rfl | hm
          · exact h2
          · exact ih _ obj hm
        · rw [if_neg h3] at h
          exact ih _ obj h

/-- The inner loop yields objects with pairwise distinct `Char`s, none of
which was already in the seen set it started from. -/
theorem implementerObjs_chars (env : TypeEnv) (co : Bool) (iface : ObjectIdent) :
    ∀ (l : List ObjectIdent) (seen : CharSet),
      ((implementerObjs env co iface l seen).map NewChar).Nodup ∧
      ∀ c ∈ (implementerObjs env co iface l seen).map NewChar, c ∉ seen := by
  intro l
  induction l with
  | nil =>
    intro seen
    simp [implementerObjs]
  | cons a rest ih =>
    intro seen
    rw [implementerObjs]
    by_cases h1 : NewChar a ∈ seen
    · rw [if_pos h1]
      exact ih seen
    · rw [if_neg h1]
      by_cases h2 : (co && IsInterface env a.ty) = true
      · rw [if_pos h2]
        obtain ⟨hnd, hinv⟩ := ih (NewChar a :: seen)
        exact ⟨hnd, fun c hc hcs => hinv c hc (List.mem_cons_of_mem _ hcs)⟩
      · rw [if_neg h2]
        by_cases h3 : intuitiveImplements env a iface = true
        · rw [if_pos h3]
          obtain ⟨hnd, hinv⟩ := ih (NewChar a :: seen)
          constructor
          · rw [List.map_cons, List.nodup_cons]
            exact ⟨fun hmem => hinv _ hmem (List.mem_cons_self _ _), hnd⟩
          · intro c hc
            rw [List.map_cons, List.mem_cons] at hc
            rcases hc with rfl | hc
            · exact h1
            · exact fun hcs => hinv c hc (List.mem_cons_of_mem _ hcs)
        · rw [if_neg h3]
          obtain ⟨hnd, hinv⟩ := ih (NewChar a :: seen)
          exact ⟨hnd, fun c hc hcs => hinv c hc (List.mem_cons_of_mem _ hcs)⟩

/-- The outer seen table yields interfaces with pairwise distinct `Char`s,
none of which was already in the seen set it started from. -/
theorem dedupByChar_chars :
    ∀ (l : List ObjectIdent) (seen : CharSet),
      ((dedupByChar l seen).map NewChar).Nodup ∧
      ∀ c ∈ (dedupByChar l seen).map NewChar, c ∉ seen := by
  intro l
  induction l with
  | nil =>
    intro seen
    simp [dedupByChar]
  | cons a rest ih =>
    intro seen
    rw [dedupByChar]
    by_cases h1 : NewChar a ∈ seen
    · rw [if_pos h1]
      exact ih seen
    · rw [if_neg h1]
      obtain ⟨hnd, hinv⟩ := ih (NewChar a :: seen)
      constructor
      · rw [List.map_cons, List.nodup_cons]
        exact ⟨fun hmem => hinv _ hmem (List.mem_cons_self _ _), hnd⟩
      · intro c hc
        rw [List.map_cons, List.mem_cons] at hc
        rcases hc with rfl | hc
        · exact h1
        · exact fun hcs => hinv c hc (List.mem_cons_of_mem _ hcs)

/-- If no object of the universe is accepted against the interface, the
inner loop yields nothing. -/
theorem implementerObjs_nil_of_none (env : TypeEnv) (co : Bool) (iface : ObjectIdent) :
    ∀ (l : List ObjectIdent) (seen : CharSet),
      (∀ obj ∈ l, intuitiveImplements env obj iface = false) →
      implementerObjs env co iface l seen = [] := by
  intro l
  induction l with
  | nil =>
    intro seen _
    rfl
  | cons a rest ih =>
    intro seen h
    have ha : ¬ intuitiveImplements env a iface = true := by
      rw [h a (List.mem_cons_self _ _)]
      simp
    have hrest : ∀ obj ∈ rest, intuitiveImplements env obj iface = false :=
      fun o ho => h o (List.mem_cons_of_mem _ ho)
    rw [implementerObjs]
    by_cases h1 : NewChar a ∈ seen
    · rw [if_pos h1]
      exact ih seen hrest
    · rw [if_neg h1]
      by_cases h2 : (co && IsInterface env a.ty) = true
      · rw [if_pos h2]
        exact ih _ hrest
      · rw [if_neg h2, if_neg ha]
        exact ih _ hrest

/-- The select loop returns the first non-nil error it observes, leaving the
remaining events unconsumed. -/
theorem getObjectsLoop_first_error (rest : List Event) (e : GoErr) :
    ∀ (pre : List Event) (acc : List ObjectIdent),
      (∀ ev ∈ pre, isStopEvent ev = false) →
      getObjectsLoop (pre ++ Event.errEv (some e) :: rest) acc = (LoopOut.failed e, rest) := by
  intro pre
  induction pre with
  | nil =>
    intro acc _
    rfl
  | cons ev pre ih =>
    intro acc h
    have hev := h ev (List.mem_cons_self _ _)
    have hrest : ∀ x ∈ pre, isStopEvent x = false :=
      fun x hx => h x (List.mem_cons_of_mem _ hx)
    cases ev with
    | objEv o =>
      exact ih (acc ++ [o]) hrest
    | closeEv =>
      simp [isStopEvent] at hev
    | errEv oe =>
      cases oe with
      | none => exact ih acc hrest
      | some x => simp [isStopEvent] at hev

/-! ## Claim theorems -/

/-- C1: for every symbol universe and target identifier, a symbol whose
`Char` (IdentityKey) equals that of a selected interface never appears in
that interface's result list in the output of `findImplementers` — in
particular an interface never appears in its own result list — even when
the symbol is structurally self-compatible. -/
theorem findImplementers_self_exclusion (env : TypeEnv) (objs : List ObjectIdent)
    (tgt : String) (co : Bool) (iface obj : ObjectIdent)
    (hiface : iface ∈ dedupByChar (filterInterfaces env objs tgt) [])
    (hchar : NewChar obj = NewChar iface) :
    mkResult env objs co iface ∈ findImplementers env objs tgt co ∧
    obj ∉ implementerObjs env co iface objs [] := by
  constructor
  · simp only [findImplementers]
    exact List.mem_map_of_mem _ hiface
  · intro hmem
    exact intuitiveImplements_ne_char env obj iface
      (mem_implementerObjs_intuitive env co iface objs [] obj hmem) hchar

/-- Witness for C1: in the testdata universe, `testpkg.Foo`'s own result
row is produced and `Foo` itself is excluded from its implementer list. -/
theorem findImplementers_self_exclusion_witness :
    mkResult file1Env file1Objects false objFoo ∈
        findImplementers file1Env file1Objects "testpkg.Foo" false ∧
    objFoo ∉ implementerObjs file1Env false objFoo file1Objects [] :=
  findImplementers_self_exclusion file1Env file1Objects "testpkg.Foo" false objFoo objFoo
    (by decide) rfl

/-- C2: every candidate identity appears at most once in a given
interface's implementer list (the inner `SeenTable` set gives pairwise
distinct `Char`s), and `findImplementers` produces at most one result row
per distinct interface identity (the processed interfaces have pairwise
distinct `Char`s and the output has exactly one row per processed
interface), even when the same interface identity occurs several times in
the universe. -/
theorem findImplementers_seen_dedup (env : TypeEnv) (objs : List ObjectIdent)
    (tgt : String) (co : Bool) (iface : ObjectIdent)
    (_hiface : iface ∈ dedupByChar (filterInterfaces env objs tgt) []) :
    ((implementerObjs env co iface objs []).map NewChar).Nodup ∧
    ((dedupByChar (filterInterfaces env objs tgt) []).map NewChar).Nodup ∧
    (findImplementers env objs tgt co).length =
      (dedupByChar (filterInterfaces env objs tgt) []).length := by
  refine ⟨(implementerObjs_chars env co iface objs []).1,
    (dedupByChar_chars (filterInterfaces env objs tgt) []).1, ?_⟩
  simp [findImplementers]

/-- Witness for C2 at the testdata universe and the `testpkg.Foo` row. -/
theorem findImplementers_seen_dedup_witness :
    ((implementerObjs file1Env false objFoo file1Objects []).map NewChar).Nodup ∧
    ((dedupByChar (filterInterfaces file1Env file1Objects "testpkg.Foo") []).map NewChar).Nodup ∧
    (findImplementers file1Env file1Objects "testpkg.Foo" false).length =
      (dedupByChar (filterInterfaces file1Env file1Objects "testpkg.Foo") []).length :=
  findImplementers_seen_dedup file1Env file1Objects "testpkg.Foo" false objFoo (by decide)

/-- C3: with `concrete-only` set, every object contributing to a result
row of `findImplementers` is of non-interface kind, so no implementer list
contains an interface symbol. -/
theorem findImplementers_concrete_only (env : TypeEnv) (objs : List ObjectIdent)
    (tgt : String) (iface obj : ObjectIdent)
    (hiface : iface ∈ dedupByChar (filterInterfaces env objs tgt) [])
    (hobj : obj ∈ implementerObjs env true iface objs []) :
    IsInterface env obj.ty = false ∧
    NewResultIdentifier obj ∈ (mkResult env objs true iface).Implementers ∧
    mkResult env objs true iface ∈ findImplementers env objs tgt true := by
  refine ⟨mem_implementerObjs_not_interface env iface objs [] obj hobj, ?_, ?_⟩
  · exact List.mem_map_of_mem _ hobj
  · simp only [findImplementers]
    exact List.mem_map_of_mem _ hiface

/-- Witness for C3: in the concrete-only testdata query the accepted
candidate `*testpkg.Zaphod` is not an interface. -/
theorem findImplementers_concrete_only_witness :
    IsInterface file1Env objRecvS.ty = false ∧
    NewResultIdentifier objRecvS ∈ (mkResult file1Env file1Objects true objFoo).Implementers ∧
    mkResult file1Env file1Objects true objFoo ∈
      findImplementers file1Env file1Objects "testpkg.Foo" true :=
  findImplementers_concrete_only file1Env file1Objects "testpkg.Foo" objFoo objRecvS
    (by decide) (by decide)

/-- C4: on the testdata universe, querying `testpkg.Foo` yields the
implementers `{testpkg.Planet, *testpkg.Zaphod}`, the concrete-only query
yields `{*testpkg.Zaphod}`, and querying `testpkg.Baz` yields a single row
with an empty implementer list. -/
theorem findImplementers_testdata_scenario :
    findImplementers file1Env file1Objects "testpkg.Foo" false =
      [⟨⟨"testpkg.Foo", ⟨"internal/testdata/file1.go", 5, 6⟩⟩,
        [⟨"testpkg.Planet", ⟨"internal/testdata/file1.go", 11, 6⟩⟩,
         ⟨"*testpkg.Zaphod", ⟨"internal/testdata/file1.go", 23, 6⟩⟩]⟩] ∧
    findImplementers file1Env file1Objects "testpkg.Foo" true =
      [⟨⟨"testpkg.Foo", ⟨"internal/testdata/file1.go", 5, 6⟩⟩,
        [⟨"*testpkg.Zaphod", ⟨"internal/testdata/file1.go", 23, 6⟩⟩]⟩] ∧
    findImplementers file1Env file1Objects "testpkg.Baz" false =
      [⟨⟨"testpkg.Baz", ⟨"internal/testdata/file1.go", 17, 6⟩⟩, []⟩] := by
  refine ⟨?_, ?_, ?_⟩ <;> decide

/-- C5: a resolution failure in any compilation unit makes `getObjects`
return a nil symbol list together with that failure — the parse error when
`parsePath` fails, otherwise the first non-nil unit error the select loop
observes — so no partial symbol universe is ever paired with an error. -/
theorem getObjects_abort_on_error (pre rest : List Event) (e : GoErr) (pr : Option GoErr)
    (hpre : ∀ ev ∈ pre, isStopEvent ev = false) :
    getObjects pr (pre ++ Event.errEv (some e) :: rest) = (none, some (pr.getD e)) := by
  cases pr with
  | some p => rfl
  | none =>
    have h := getObjectsLoop_first_error rest e pre [] hpre
    simp [getObjects, h]

/-- Witness for C5: a trace delivering one object and one unit success
before a failing unit still aborts with a nil list and that error. -/
theorem getObjects_abort_on_error_witness :
    getObjects none
        [Event.objEv objZaphod, Event.errEv none, Event.errEv (some (GoErr.base "boom")),
         Event.closeEv] =
      (none, some (GoErr.base "boom")) :=
  getObjects_abort_on_error [Event.objEv objZaphod, Event.errEv none] [Event.closeEv]
    (GoErr.base "boom") none (by decide)

/-- C6 (counterexample): the emission filter of `getObjectsPkg` keeps every
`Defs` entry with a non-nil object and a non-nil `ident.Obj`; on the
testdata unit this lets the method receiver definition `s` (a variable, not
a type declaration) into the emitted stream — the repository's own tests
depend on such receiver-derived symbols (`*testpkg.Zaphod`) — so the
emitted symbols are not only top-level named type declarations. -/
theorem getObjectsPkg_emits_nontype_counterexample :
    DefEntry.mk "s" DefKind.recvDecl true true ∈ getObjectsPkgEmits file1Defs ∧
    (getObjectsPkgEmits file1Defs).all (fun e => decide (e.kind = DefKind.typeDecl)) = false := by
  decide

/-- C6 (amended): `getObjectsPkg` emits exactly the `Defs` entries whose
`types.Object` and whose identifier's `ast.Object` are both non-nil;
declarations with no associated identifier object or a nil object
(anonymous or synthetic identifiers, method names) are skipped, while
named top-level type declarations — and equally other parser-resolved
definitions such as receivers and parameters — are emitted. -/
theorem getObjectsPkg_emission (defs : List DefEntry) (e : DefEntry) :
    e ∈ getObjectsPkgEmits defs ↔
      e ∈ defs ∧ e.objPresent = true ∧ e.identObjPresent = true := by
  simp [getObjectsPkgEmits, List.mem_filter, Bool.and_eq_true, and_assoc]

/-- Witness for the amended C6 at the `Foo` type declaration entry. -/
theorem getObjectsPkg_emission_witness :
    DefEntry.mk "Foo" DefKind.typeDecl true true ∈ getObjectsPkgEmits file1Defs ↔
      DefEntry.mk "Foo" DefKind.typeDecl true true ∈ file1Defs ∧
      (DefEntry.mk "Foo" DefKind.typeDecl true true).objPresent = true ∧
      (DefEntry.mk "Foo" DefKind.typeDecl true true).identObjPresent = true :=
  getObjectsPkg_emission file1Defs (DefEntry.mk "Foo" DefKind.typeDecl true true)

/-- C7 (code bug): re-wrapping an already-wrapped error duplicates the
inner contextual message instead of chaining each message once: the merged
message is prepended, but the returned wrapper still wraps the whole inner
wrapper, whose own message prints again. -/
theorem wrapErr_rewrap_duplicates_message :
    errorMsg (wrapErr "outer context" (wrapErr "inner context" (GoErr.base "cause"))) =
      "outer context: inner context: inner context: cause" ∧
    errorMsg (wrapErr "outer context" (wrapErr "inner context" (GoErr.base "cause"))) ≠
      "outer context: inner context: cause" := by
  exact ⟨rfl, by decide⟩

/-- C8: `findDef` resolves any depth of pointer wrapping around a named
type to the declaration position of the underlying named declaration, so
`NewResultIdentifier` reports the same position for `*T` (and deeper
pointer nestings) as for `T`. -/
theorem findDef_pointer_resolution (pkg : Pkg) (name : String) (dpos : Nat) (k : Nat)
    (opkg : Pkg) (opos : Nat) (fs : FileSet) :
    findDef (iterPtr k (Ty.named pkg name dpos)) = findDef (Ty.named pkg name dpos) ∧
    (NewResultIdentifier ⟨opkg, iterPtr k (Ty.named pkg name dpos), opos, fs⟩).Pos =
      (NewResultIdentifier ⟨opkg, Ty.named pkg name dpos, opos, fs⟩).Pos := by
  have h : findDef (iterPtr k (Ty.named pkg name dpos)) = findDef (Ty.named pkg name dpos) := by
    induction k with
    | zero => rfl
    | succ n ih => rw [iterPtr, findDef_pointer, ih]
  exact ⟨h, by simp [NewResultIdentifier, h]⟩

/-- C9 (counterexample): when the error channel wins the race, the select
loop of `getObjects` returns the failure at once, leaving a producer's
pending object event unconsumed — the producers are not drained, so a
producer goroutine blocked on its send is never released. -/
theorem getObjectsLoop_no_drain_counterexample :
    (getObjectsLoop [Event.errEv (some (GoErr.base "boom")), Event.objEv objPlanet] []).1 =
      LoopOut.failed (GoErr.base "boom") ∧
    Event.objEv objPlanet ∈
      (getObjectsLoop [Event.errEv (some (GoErr.base "boom")), Event.objEv objPlanet] []).2 := by
  decide

/-- C9 (amended): on the first non-nil unit error, the select loop of
`getObjects` returns that failure immediately; every event after the error
— including any still-pending producer sends — is left unconsumed rather
than drained. -/
theorem getObjectsLoop_early_return (pre rest : List Event) (e : GoErr)
    (acc : List ObjectIdent)
    (hpre : ∀ ev ∈ pre, isStopEvent ev = false) :
    (getObjectsLoop (pre ++ Event.errEv (some e) :: rest) acc).1 = LoopOut.failed e ∧
    (getObjectsLoop (pre ++ Event.errEv (some e) :: rest) acc).2 = rest := by
  have h := getObjectsLoop_first_error rest e pre acc hpre
  exact ⟨by rw [h], by rw [h]⟩

/-- Witness for the amended C9: after one object and the failure, the
remaining producer events are exactly the unconsumed suffix. -/
theorem getObjectsLoop_early_return_witness :
    (getObjectsLoop
        [Event.objEv objRecvS, Event.errEv (some (GoErr.base "resolve failed")),
         Event.objEv objParamA, Event.closeEv] []).1 =
      LoopOut.failed (GoErr.base "resolve failed") ∧
    (getObjectsLoop
        [Event.objEv objRecvS, Event.errEv (some (GoErr.base "resolve failed")),
         Event.objEv objParamA, Event.closeEv] []).2 =
      [Event.objEv objParamA, Event.closeEv] :=
  getObjectsLoop_early_return [Event.objEv objRecvS] [Event.objEv objParamA, Event.closeEv]
    (GoErr.base "resolve failed") [] (by decide)

/-- C10: `findImplementers` produces exactly one result row per distinct
matching interface identity; when no candidate in the universe satisfies
the interface, the row is still present and its implementer list is the
empty list. -/
theorem findImplementers_empty_result_row (env : TypeEnv) (objs : List ObjectIdent)
    (tgt : String) (co : Bool) (iface : ObjectIdent)
    (hiface : iface ∈ dedupByChar (filterInterfaces env objs tgt) [])
    (hnone : ∀ obj ∈ objs, intuitiveImplements env obj iface = false) :
    mkResult env objs co iface ∈ findImplementers env objs tgt co ∧
    (mkResult env objs co iface).Implementers = [] := by
  constructor
  · simp only [findImplementers]
    exact List.mem_map_of_mem _ hiface
  · simp [mkResult, implementerObjs_nil_of_none env co iface objs [] hnone]

/-- Witness for C10: the `testpkg.Baz` query has no satisfying candidate,
yet its row appears with an empty implementer list. -/
theorem findImplementers_empty_result_row_witness :
    mkResult file1Env file1Objects false objBazI ∈
        findImplementers file1Env file1Objects "testpkg.Baz" false ∧
    (mkResult file1Env file1Objects false objBazI).Implementers = [] :=
  findImplementers_empty_result_row file1Env file1Objects "testpkg.Baz" false objBazI
    (by decide) (by decide)

end Impl
